import Mathlib

/-! Custom message bus identifiers of pxt-mstate.

A shallow embedding of the two headers of the repository:

* `inc/CustomMicroBit.h` : the status flag masks and the global listing
  `enum CUSTOM_BUS_ID`;
* `src/mstate.h` : the extension-local listing `enum MSTATE_BUS_ID`.

An enumerator is embedded together with what the header writes around it: the
text and the arithmetic of its doc comment, and the link comment that follows it.
-/

namespace MState

/-! ## Status flags (`inc/CustomMicroBit.h`, lines 41-48) -/

/-- `#ifndef MICROBIT_COMPONENT_RUNNING / #define MICROBIT_COMPONENT_RUNNING 0x01 / #endif`:
the value the host runtime gave the name, when it gave one, and `0x01` otherwise. -/
def MICROBIT_COMPONENT_RUNNING (hostDefined : Option Nat) : Nat :=
  match hostDefined with
  | some v => v
  | none => 0x01

/-- `#define CUSTOM_COMPONENT_ADDED_TO_IDLE 0x02` -/
def CUSTOM_COMPONENT_ADDED_TO_IDLE : Nat := 0x02

/-- Not a function of this repository: the C idiom `status |= flag` that sets a flag
of a status field. -/
def setFlag (status flag : Nat) : Nat := status ||| flag

/-- Not a function of this repository: the C idiom `status &= ~flag` that clears a flag
of an unsigned status field of `w` bits; `~flag` is the complement of `flag` within the
`w` bits of the field. -/
def clearFlag (w status flag : Nat) : Nat := status &&& ((2 ^ w - 1) ^^^ flag)

/-- Not a function of this repository: the C idiom `status & flag` that tests a flag. -/
def flagSet (status flag : Nat) : Bool := (status &&& flag) != 0

/-! ## Identifier ranges (header comments of both listings) -/

/-- `micro:bit Message Bus ID of listener : 1-65535`, lower end. -/
def busIdMin : Nat := 1

/-- `micro:bit Message Bus ID of listener : 1-65535`, upper end. -/
def busIdMax : Nat := 65535

/-- `Custom Message Bus ID : 32768-65535`, lower end. -/
def customIdMin : Nat := 32768

/-- `Custom Message Bus ID : 32768-65535`, upper end. -/
def customIdMax : Nat := 65535

/-- Membership in the bus ID space `1-65535` of the header comment. -/
def inBusIdSpace (id : Nat) : Bool := decide (busIdMin ≤ id) && decide (id ≤ busIdMax)

/-- Membership in the custom range `32768-65535` of the header comment. -/
def inCustomRange (id : Nat) : Bool := decide (customIdMin ≤ id) && decide (id ≤ customIdMax)

/-- Modelled from the spec: the lower end of the reserved/native range `[1, 32767]`; the
headers state the bus ID space and the custom range only. -/
def nativeIdMin : Nat := 1

/-- Modelled from the spec: the upper end of the reserved/native range `[1, 32767]`; the
headers state the bus ID space and the custom range only. -/
def nativeIdMax : Nat := 32767

/-- Modelled from the spec: membership in the reserved/native range `[1, 32767]`, which the
headers do not state. -/
def inNativeRange (id : Nat) : Bool := decide (nativeIdMin ≤ id) && decide (id ≤ nativeIdMax)

/-- The second summand of every doc comment `(32768 + 1024 + k = ...)`: the size of a block. -/
def blockSize : Nat := 1024

/-- Modelled from the spec: the allocation formula `32768 + block*1024 + offset`; the headers
only write its instances `(32768 + 1024 + k = ...)` in the doc comments. -/
def allocValue (block offset : Nat) : Nat := customIdMin + blockSize * block + offset

/-- Block number of a value, `(value - 32768) / 1024`. -/
def blockOf (value : Nat) : Nat := (value - customIdMin) / blockSize

/-- Offset of a value within its block, `(value - 32768) mod 1024`. -/
def offsetOf (value : Nat) : Nat := (value - customIdMin) % blockSize

/-! ## The listings -/

/-- One enumerator of a listing, with the comments the header attaches to it. -/
structure Enumerator where
  /-- the identifier declared in the `enum` -/
  name : String
  /-- the integer the enumerator is set to -/
  value : Nat
  /-- first line of the doc comment -/
  purpose : String
  /-- summands of the arithmetic in the doc comment, `(a + b + c = r)` -/
  docTerms : List Nat
  /-- stated result `r` of the arithmetic in the doc comment -/
  docResult : Nat
  /-- the link comment `// https://github.com/jp-rad/<extension>/` that follows the entry
  (for an entry with no link comment of its own, the next one below it) -/
  ownerLink : String
deriving DecidableEq, Repr

/-- `CUSTOM_EVENT_ID_S3LINK_UDK = 33793` -/
def CUSTOM_EVENT_ID_S3LINK_UDK : Nat := 33793

/-- `CUSTOM_EVENT_ID_MSTATE_UPDATE = 33797` -/
def CUSTOM_EVENT_ID_MSTATE_UPDATE : Nat := 33797

/-- `CUSTOM_EVENT_ID_IDLETIMER_INTERVAL = 33801` -/
def CUSTOM_EVENT_ID_IDLETIMER_INTERVAL : Nat := 33801

/-- `CUSTOM_EVENT_ID_IDLETIMER_TIMEOUT = 33802` -/
def CUSTOM_EVENT_ID_IDLETIMER_TIMEOUT : Nat := 33802

/-- `MSTATE_ID_UPDATE = 33797` (`src/mstate.h`) -/
def MSTATE_ID_UPDATE : Nat := 33797

/-- `enum CUSTOM_BUS_ID` of `inc/CustomMicroBit.h`, in declaration order. -/
def CUSTOM_BUS_ID : List Enumerator :=
  [ Enumerator.mk "CUSTOM_EVENT_ID_S3LINK_UDK" CUSTOM_EVENT_ID_S3LINK_UDK
      "S3Link UDK Event Bus ID." [32768, 1024, 1] 33793
      "https://github.com/jp-rad/pxt-s3link-udk/",
    Enumerator.mk "CUSTOM_EVENT_ID_MSTATE_UPDATE" CUSTOM_EVENT_ID_MSTATE_UPDATE
      "MState Update Event Bus ID." [32768, 1024, 5] 33797
      "https://github.com/jp-rad/pxt-mstate/",
    Enumerator.mk "CUSTOM_EVENT_ID_IDLETIMER_INTERVAL" CUSTOM_EVENT_ID_IDLETIMER_INTERVAL
      "Idle-Timer Interval Event Bus ID." [32768, 1024, 9] 33801
      "https://github.com/jp-rad/pxt-idle-timer/",
    Enumerator.mk "CUSTOM_EVENT_ID_IDLETIMER_TIMEOUT" CUSTOM_EVENT_ID_IDLETIMER_TIMEOUT
      "Idle-Timer Timeout Event Bus ID." [32768, 1024, 10] 33802
      "https://github.com/jp-rad/pxt-idle-timer/" ]

/-- `enum MSTATE_BUS_ID` of `src/mstate.h`. -/
def MSTATE_BUS_ID : List Enumerator :=
  [ Enumerator.mk "MSTATE_ID_UPDATE" MSTATE_ID_UPDATE
      "MState Update Event Bus ID." [32768, 1024, 5] 33797
      "https://github.com/jp-rad/pxt-mstate/" ]

/-- Value of the enumerator called `n` in a listing, when the listing declares it. -/
def valueOf (listing : List Enumerator) (n : String) : Option Nat :=
  (listing.find? (fun e => e.name == n)).map (fun e => e.value)

/-- Block number of an enumerator. -/
def Enumerator.block (e : Enumerator) : Nat := blockOf e.value

/-- Offset of an enumerator within its block. -/
def Enumerator.offset (e : Enumerator) : Nat := offsetOf e.value

/-! ## Shared lemmas -/

/-- A lookup that succeeds found an enumerator of the listing with that name and value. -/
theorem valueOf_eq_some {listing : List Enumerator} {n : String} {v : Nat}
    (h : valueOf listing n = some v) : ∃ e ∈ listing, e.name = n ∧ e.value = v := by
  unfold valueOf at h
  cases hf : listing.find? (fun e => e.name == n) with
  | none => simp [hf] at h
  | some e =>
    rw [hf] at h
    refine ⟨e, List.mem_of_find?_eq_some hf, ?_, ?_⟩
    · have := List.find?_some hf
      simpa using this
    · simpa using h

/-- Setting a mask leaves every mask disjoint from it as it was. -/
theorem and_setFlag_of_disjoint (status f g : Nat) (h : f &&& g = 0) :
    setFlag status f &&& g = status &&& g := by
  unfold setFlag
  apply Nat.eq_of_testBit_eq
  intro i
  have hi : (f &&& g).testBit i = false := by rw [h]; simp
  rw [Nat.testBit_and] at hi
  simp only [Nat.testBit_and, Nat.testBit_or]
  cases hs : status.testBit i <;> cases hf : f.testBit i <;> cases hg : g.testBit i <;> simp_all

/-- Clearing a mask in a field of `w` bits leaves every mask of the field that is disjoint
from it as it was. -/
theorem and_clearFlag_of_disjoint (w status f g : Nat) (h : f &&& g = 0) (hg : g < 2 ^ w) :
    clearFlag w status f &&& g = status &&& g := by
  unfold clearFlag
  apply Nat.eq_of_testBit_eq
  intro i
  have hi : (f &&& g).testBit i = false := by rw [h]; simp
  rw [Nat.testBit_and] at hi
  simp only [Nat.testBit_and, Nat.testBit_xor, Nat.testBit_two_pow_sub_one]
  by_cases hiw : i < w
  · cases hs : status.testBit i <;> cases hf : f.testBit i <;> cases hg : g.testBit i <;>
      simp_all
  · have hgi : g.testBit i = false := by
      apply Nat.testBit_lt_two_pow
      calc g < 2 ^ w := hg
        _ ≤ 2 ^ i := Nat.pow_le_pow_right (by decide) (by omega)
    simp [hgi]

/-- A flag that was set is set. -/
theorem flagSet_setFlag (status f : Nat) (hf : f ≠ 0) : flagSet (setFlag status f) f = true := by
  unfold flagSet setFlag
  have : (status ||| f) &&& f = f := by
    apply Nat.eq_of_testBit_eq
    intro i
    simp only [Nat.testBit_and, Nat.testBit_or]
    cases status.testBit i <;> cases f.testBit i <;> rfl
  simp [this, hf]

/-- A flag that was cleared is not set. -/
theorem flagSet_clearFlag (w status f : Nat) (hf : f < 2 ^ w) :
    flagSet (clearFlag w status f) f = false := by
  unfold flagSet clearFlag
  have : (status &&& ((2 ^ w - 1) ^^^ f)) &&& f = 0 := by
    apply Nat.eq_of_testBit_eq
    intro i
    simp only [Nat.testBit_and, Nat.testBit_xor, Nat.testBit_two_pow_sub_one, Nat.zero_testBit]
    by_cases hiw : i < w
    · cases status.testBit i <;> cases f.testBit i <;> simp [hiw]
    · have hfi : f.testBit i = false := by
        apply Nat.testBit_lt_two_pow
        calc f < 2 ^ w := hf
          _ ≤ 2 ^ i := Nat.pow_le_pow_right (by decide) (by omega)
      simp [hfi]
  simp [this]

/-! ## The global listing: uniqueness, range, published values -/

/-- C1: two enumerators of `CUSTOM_BUS_ID` whose names differ have different values, and
the lookup of a value by name is injective: two names that the listing resolves to the
same value are the same name. -/
theorem custom_bus_id_values_unique (a b : Enumerator)
    (ha : a ∈ CUSTOM_BUS_ID) (hb : b ∈ CUSTOM_BUS_ID) (hne : a.name ≠ b.name) :
    a.value ≠ b.value ∧
      ∀ n m v, valueOf CUSTOM_BUS_ID n = some v → valueOf CUSTOM_BUS_ID m = some v → n = m := by
  have key : ∀ x ∈ CUSTOM_BUS_ID, ∀ y ∈ CUSTOM_BUS_ID, x.value = y.value → x.name = y.name := by
    decide
  refine ⟨fun hv => hne (key a ha b hb hv), ?_⟩
  intro n m v hn hm
  obtain ⟨x, hx, hxn, hxv⟩ := valueOf_eq_some hn
  obtain ⟨y, hy, hym, hyv⟩ := valueOf_eq_some hm
  rw [← hxn, ← hym]
  exact key x hx y hy (hxv.trans hyv.symm)

/-- C1 at the S3Link and MState entries of the listing. -/
theorem custom_bus_id_values_unique_witness :
    CUSTOM_EVENT_ID_S3LINK_UDK ≠ CUSTOM_EVENT_ID_MSTATE_UPDATE ∧
      ∀ n m v, valueOf CUSTOM_BUS_ID n = some v → valueOf CUSTOM_BUS_ID m = some v → n = m :=
  custom_bus_id_values_unique (CUSTOM_BUS_ID.get ⟨0, by decide⟩) (CUSTOM_BUS_ID.get ⟨1, by decide⟩)
    (by decide) (by decide) (by decide)

/-- C2: every enumerator of `CUSTOM_BUS_ID` and of `MSTATE_BUS_ID` has its value in
`[32768, 65535]`: it is in the custom range of the header comment, it is not `≤ 32767`,
and it fits the 16 bits of a bus ID. -/
theorem bus_id_values_in_custom_range (c : Enumerator)
    (hc : c ∈ CUSTOM_BUS_ID ∨ c ∈ MSTATE_BUS_ID) :
    32768 ≤ c.value ∧ c.value ≤ 65535 ∧ inCustomRange c.value = true ∧
      ¬ c.value ≤ 32767 ∧ c.value < 2 ^ 16 := by
  have key : ∀ x ∈ CUSTOM_BUS_ID ++ MSTATE_BUS_ID,
      32768 ≤ x.value ∧ x.value ≤ 65535 ∧ inCustomRange x.value = true ∧
        ¬ x.value ≤ 32767 ∧ x.value < 2 ^ 16 := by
    decide
  exact key c (List.mem_append.mpr hc)

/-- C2 at the only enumerator of the extension-local listing. -/
theorem bus_id_values_in_custom_range_witness :
    32768 ≤ MSTATE_ID_UPDATE ∧ MSTATE_ID_UPDATE ≤ 65535 ∧
      inCustomRange MSTATE_ID_UPDATE = true ∧ ¬ MSTATE_ID_UPDATE ≤ 32767 ∧
      MSTATE_ID_UPDATE < 2 ^ 16 :=
  bus_id_values_in_custom_range (MSTATE_BUS_ID.get ⟨0, by decide⟩) (Or.inr (by decide))

/-- C5: the named constants carry their published values, as constants and as entries of
their listings. -/
theorem published_values_stable :
    CUSTOM_EVENT_ID_S3LINK_UDK = 33793 ∧ CUSTOM_EVENT_ID_MSTATE_UPDATE = 33797 ∧
      CUSTOM_EVENT_ID_IDLETIMER_INTERVAL = 33801 ∧ CUSTOM_EVENT_ID_IDLETIMER_TIMEOUT = 33802 ∧
      MSTATE_ID_UPDATE = 33797 ∧
      valueOf CUSTOM_BUS_ID "CUSTOM_EVENT_ID_S3LINK_UDK" = some 33793 ∧
      valueOf CUSTOM_BUS_ID "CUSTOM_EVENT_ID_MSTATE_UPDATE" = some 33797 ∧
      valueOf CUSTOM_BUS_ID "CUSTOM_EVENT_ID_IDLETIMER_INTERVAL" = some 33801 ∧
      valueOf CUSTOM_BUS_ID "CUSTOM_EVENT_ID_IDLETIMER_TIMEOUT" = some 33802 ∧
      valueOf MSTATE_BUS_ID "MSTATE_ID_UPDATE" = some 33797 ∧
      CUSTOM_BUS_ID.map (fun e => e.value) = [33793, 33797, 33801, 33802] ∧
      MSTATE_BUS_ID.map (fun e => e.value) = [33797] := by
  decide

/-! ## The two listings against each other -/

/-- C3, as stated, fails: the entry `MSTATE_ID_UPDATE` of the extension-local listing has no
entry of the global listing with the same name and the same value. -/
theorem cross_listing_same_name_fails :
    ¬ (∀ e ∈ MSTATE_BUS_ID, ∃ g ∈ CUSTOM_BUS_ID, g.name = e.name ∧ g.value = e.value) := by
  decide

/-- C3, amended: every entry of `MSTATE_BUS_ID` appears in `CUSTOM_BUS_ID` with the same value,
the same documentation (purpose line and arithmetic) and the same owner link, under the
global listing's own name `CUSTOM_EVENT_ID_MSTATE_UPDATE`, which is not the local name; the
two listings share no name at all. -/
theorem cross_listing_same_value_other_name (e : Enumerator) (he : e ∈ MSTATE_BUS_ID) :
    (∃ g ∈ CUSTOM_BUS_ID, g.value = e.value ∧ g.purpose = e.purpose ∧
        g.docTerms = e.docTerms ∧ g.docResult = e.docResult ∧ g.ownerLink = e.ownerLink ∧
        g.name = "CUSTOM_EVENT_ID_MSTATE_UPDATE" ∧ g.name ≠ e.name) ∧
      valueOf CUSTOM_BUS_ID e.name = none ∧
      ∀ g ∈ CUSTOM_BUS_ID, valueOf MSTATE_BUS_ID g.name = none := by
  have key : ∀ x ∈ MSTATE_BUS_ID,
      (∃ g ∈ CUSTOM_BUS_ID, g.value = x.value ∧ g.purpose = x.purpose ∧
          g.docTerms = x.docTerms ∧ g.docResult = x.docResult ∧ g.ownerLink = x.ownerLink ∧
          g.name = "CUSTOM_EVENT_ID_MSTATE_UPDATE" ∧ g.name ≠ x.name) ∧
        valueOf CUSTOM_BUS_ID x.name = none ∧
        ∀ g ∈ CUSTOM_BUS_ID, valueOf MSTATE_BUS_ID g.name = none := by
    decide
  exact key e he

/-- C3, amended, at the only enumerator of the extension-local listing. -/
theorem cross_listing_same_value_other_name_witness :
    (∃ g ∈ CUSTOM_BUS_ID, g.value = 33797 ∧ g.purpose = "MState Update Event Bus ID." ∧
        g.docTerms = [32768, 1024, 5] ∧ g.docResult = 33797 ∧
        g.ownerLink = "https://github.com/jp-rad/pxt-mstate/" ∧
        g.name = "CUSTOM_EVENT_ID_MSTATE_UPDATE" ∧ g.name ≠ "MSTATE_ID_UPDATE") ∧
      valueOf CUSTOM_BUS_ID "MSTATE_ID_UPDATE" = none ∧
      ∀ g ∈ CUSTOM_BUS_ID, valueOf MSTATE_BUS_ID g.name = none :=
  cross_listing_same_value_other_name (MSTATE_BUS_ID.get ⟨0, by decide⟩) (by decide)

/-- C4: every value of the extension-local listing is the value of an entry of the global
listing, and `MSTATE_ID_UPDATE` equals `CUSTOM_EVENT_ID_MSTATE_UPDATE`. -/
theorem cross_listing_values_present (e : Enumerator) (he : e ∈ MSTATE_BUS_ID) :
    (∃ g ∈ CUSTOM_BUS_ID, g.value = e.value) ∧
      MSTATE_ID_UPDATE = CUSTOM_EVENT_ID_MSTATE_UPDATE := by
  have key : ∀ x ∈ MSTATE_BUS_ID, ∃ g ∈ CUSTOM_BUS_ID, g.value = x.value := by decide
  exact ⟨key e he, rfl⟩

/-- C4 at the only enumerator of the extension-local listing. -/
theorem cross_listing_values_present_witness :
    (∃ g ∈ CUSTOM_BUS_ID, g.value = MSTATE_ID_UPDATE) ∧
      MSTATE_ID_UPDATE = CUSTOM_EVENT_ID_MSTATE_UPDATE :=
  cross_listing_values_present (MSTATE_BUS_ID.get ⟨0, by decide⟩) (by decide)

/-! ## Blocks and offsets -/

/-- C6: every enumerator of `CUSTOM_BUS_ID` is `32768 + 1024*1 + O` with its offset `O < 1024`,
which is the arithmetic of its doc comment (summands `32768`, `1024`, `O`, and the stated
result); the offsets are 1, 5, 9, 10 in declaration order; and the decomposition is the only
one: block `(value - 32768) / 1024 = 1`, offset `(value - 32768) mod 1024`. -/
theorem block_consistency (c : Enumerator) (hc : c ∈ CUSTOM_BUS_ID) :
    c.value = 32768 + 1024 * 1 + c.offset ∧ c.offset < 1024 ∧ c.offset ∈ [1, 5, 9, 10] ∧
      c.docTerms = [32768, 1024 * 1, c.offset] ∧ c.docTerms.sum = c.value ∧
      c.docResult = c.value ∧
      CUSTOM_BUS_ID.map Enumerator.offset = [1, 5, 9, 10] ∧
      (c.value - 32768) / 1024 = 1 ∧ (c.value - 32768) % 1024 = c.offset ∧ c.block = 1 ∧
      ∀ B O, O < 1024 → c.value = 32768 + 1024 * B + O → B = 1 ∧ O = c.offset := by
  have kval : ∀ x ∈ CUSTOM_BUS_ID,
      x.value = 32768 + 1024 * 1 + x.offset ∧ x.offset < 1024 ∧ x.offset ∈ [1, 5, 9, 10] := by
    decide
  have kdoc : ∀ x ∈ CUSTOM_BUS_ID,
      x.docTerms = [32768, 1024 * 1, x.offset] ∧ x.docTerms.sum = x.value ∧
        x.docResult = x.value := by
    intro x hx
    simp only [CUSTOM_BUS_ID, List.mem_cons, List.mem_singleton, List.not_mem_nil,
      or_false] at hx
    rcases hx with rfl | rfl | rfl | rfl <;> decide
  have kinv : ∀ x ∈ CUSTOM_BUS_ID,
      (x.value - 32768) / 1024 = 1 ∧ (x.value - 32768) % 1024 = x.offset ∧ x.block = 1 := by
    decide
  obtain ⟨h1, h3, h4⟩ := kval c hc
  obtain ⟨h5, h6, h7⟩ := kdoc c hc
  obtain ⟨h9, h10, h11⟩ := kinv c hc
  refine ⟨h1, h3, h4, h5, h6, h7, by decide, h9, h10, h11, ?_⟩
  intro B O hO hv
  omega

/-- C6 at `CUSTOM_EVENT_ID_IDLETIMER_TIMEOUT`, whose doc comment reads
`(32768 + 1024 + 10 = 33802)`. -/
theorem block_consistency_witness :
    CUSTOM_EVENT_ID_IDLETIMER_TIMEOUT = 32768 + 1024 * 1 + offsetOf 33802 ∧
      offsetOf 33802 = 10 ∧ blockOf 33802 = 1 ∧
      ∀ B O, O < 1024 → 33802 = 32768 + 1024 * B + O → B = 1 ∧ O = 10 :=
  have h := block_consistency (CUSTOM_BUS_ID.get ⟨3, Nat.lt_succ_self 3⟩)
    (List.get_mem CUSTOM_BUS_ID 3 (Nat.lt_succ_self 3))
  ⟨h.1, by decide, by decide, h.2.2.2.2.2.2.2.2.2.2⟩

/-- C7, as stated, fails: `CUSTOM_EVENT_ID_S3LINK_UDK` (pxt-s3link-udk) and
`CUSTOM_EVENT_ID_MSTATE_UPDATE` (pxt-mstate) have different owners and the same block. -/
theorem one_block_per_extension_fails :
    ¬ (∀ a ∈ CUSTOM_BUS_ID, ∀ b ∈ CUSTOM_BUS_ID,
        a.ownerLink ≠ b.ownerLink → a.block ≠ b.block) := by
  decide

/-- C7, amended: all enumerators of `CUSTOM_BUS_ID` are in block 1, whoever owns them; two
enumerators owned by different extensions are told apart by their offsets within that
block. -/
theorem extensions_share_block_one (a b : Enumerator)
    (ha : a ∈ CUSTOM_BUS_ID) (hb : b ∈ CUSTOM_BUS_ID) (hne : a.ownerLink ≠ b.ownerLink) :
    a.block = 1 ∧ b.block = 1 ∧ a.offset ≠ b.offset := by
  have key : ∀ x ∈ CUSTOM_BUS_ID, ∀ y ∈ CUSTOM_BUS_ID,
      x.block = 1 ∧ y.block = 1 ∧ (x.offset = y.offset → x.ownerLink = y.ownerLink) := by
    decide
  obtain ⟨h1, h2, h3⟩ := key a ha b hb
  exact ⟨h1, h2, fun h => hne (h3 h)⟩

/-- C7, amended, at the S3Link and MState entries: block 1 both, offsets 1 and 5. -/
theorem extensions_share_block_one_witness :
    blockOf CUSTOM_EVENT_ID_S3LINK_UDK = 1 ∧ blockOf CUSTOM_EVENT_ID_MSTATE_UPDATE = 1 ∧
      offsetOf CUSTOM_EVENT_ID_S3LINK_UDK ≠ offsetOf CUSTOM_EVENT_ID_MSTATE_UPDATE :=
  extensions_share_block_one (CUSTOM_BUS_ID.get ⟨0, by decide⟩) (CUSTOM_BUS_ID.get ⟨1, by decide⟩)
    (by decide) (by decide) (by decide)

/-- C8: the allocation formula maps the pairs `(B, O)` with `B ≤ 31`, `O < 1024` one to one
onto the custom range `[32768, 65535]`: the value of such a pair is in the range, equal values
come from equal pairs, every value of the range is the value of exactly one such pair (its
block and offset), and from block 32 on the value is above 65535. -/
theorem allocValue_bijection :
    (∀ B O, B ≤ 31 → O < 1024 →
        32768 ≤ allocValue B O ∧ allocValue B O ≤ 65535 ∧ inCustomRange (allocValue B O) = true ∧
          blockOf (allocValue B O) = B ∧ offsetOf (allocValue B O) = O) ∧
      (∀ B O B' O', B ≤ 31 → O < 1024 → B' ≤ 31 → O' < 1024 →
        allocValue B O = allocValue B' O' → B = B' ∧ O = O') ∧
      (∀ v, 32768 ≤ v → v ≤ 65535 →
        blockOf v ≤ 31 ∧ offsetOf v < 1024 ∧ allocValue (blockOf v) (offsetOf v) = v ∧
          ∃! p : Nat × Nat, p.1 ≤ 31 ∧ p.2 < 1024 ∧ allocValue p.1 p.2 = v) ∧
      (∀ B O, 32 ≤ B → 65535 < allocValue B O ∧ inCustomRange (allocValue B O) = false) := by
  refine ⟨?_, ?_, ?_, ?_⟩
  · intro B O hB hO
    simp only [allocValue, blockOf, offsetOf, inCustomRange, customIdMin, customIdMax, blockSize,
      Bool.and_eq_true, decide_eq_true_eq]
    omega
  · intro B O B' O' hB hO hB' hO' h
    simp only [allocValue, customIdMin, blockSize] at h
    omega
  · intro v hlo hhi
    have hb : blockOf v ≤ 31 := by
      simp only [blockOf, customIdMin, blockSize]; omega
    have ho : offsetOf v < 1024 := by
      simp only [offsetOf, customIdMin, blockSize]; omega
    have hv : allocValue (blockOf v) (offsetOf v) = v := by
      simp only [allocValue, blockOf, offsetOf, customIdMin, blockSize]; omega
    refine ⟨hb, ho, hv, (blockOf v, offsetOf v), ⟨hb, ho, hv⟩, ?_⟩
    rintro ⟨B, O⟩ ⟨hB, hO, hBO⟩
    simp only [allocValue, blockOf, offsetOf, customIdMin, blockSize] at hBO ⊢
    simp only [Prod.mk.injEq]
    omega
  · intro B O hB
    simp only [allocValue, inCustomRange, customIdMin, customIdMax, blockSize,
      Bool.and_eq_false_imp, decide_eq_true_eq, decide_eq_false_iff_not]
    omega

/-- C8 at the ends of the range and at the first pair beyond it. -/
theorem allocValue_bijection_witness :
    allocValue 0 0 = 32768 ∧ allocValue 31 1023 = 65535 ∧ allocValue 32 0 = 65536 ∧
      (32768 ≤ allocValue 1 5 ∧ allocValue 1 5 ≤ 65535 ∧ inCustomRange (allocValue 1 5) = true ∧
        blockOf (allocValue 1 5) = 1 ∧ offsetOf (allocValue 1 5) = 5) ∧
      (65535 < allocValue 32 0 ∧ inCustomRange (allocValue 32 0) = false) :=
  ⟨by decide, by decide, by decide,
    allocValue_bijection.1 1 5 (by decide) (by decide),
    allocValue_bijection.2.2.2 32 0 (by decide)⟩

/-! ## The identifier space -/

/-- C9: an identifier is in the bus ID space `[1, 65535]` exactly when it is in the native
range `[1, 32767]` or in the custom range `[32768, 65535]`; no identifier is in both; so an
identifier of the bus ID space is in exactly one of the two. -/
theorem bus_id_space_partition (id : Nat) :
    (inBusIdSpace id = true ↔ (inNativeRange id = true ∨ inCustomRange id = true)) ∧
      ¬ (inNativeRange id = true ∧ inCustomRange id = true) ∧
      (1 ≤ id → id ≤ 65535 →
        (inNativeRange id = true ∧ inCustomRange id = false) ∨
          (inNativeRange id = false ∧ inCustomRange id = true)) ∧
      (inNativeRange id = true ↔ (1 ≤ id ∧ id ≤ 32767)) ∧
      (inCustomRange id = true ↔ (32768 ≤ id ∧ id ≤ 65535)) := by
  simp only [inBusIdSpace, inNativeRange, inCustomRange, busIdMin, busIdMax, nativeIdMin,
    nativeIdMax, customIdMin, customIdMax, Bool.and_eq_true, decide_eq_true_eq,
    Bool.and_eq_false_iff, decide_eq_false_iff_not]
  refine ⟨by omega, by omega, fun h1 h2 => by omega, trivial, trivial⟩

/-- C9 at the two sides of the boundary, 32767 and 32768. -/
theorem bus_id_space_partition_witness :
    ((inNativeRange 32767 = true ∧ inCustomRange 32767 = false) ∨
        (inNativeRange 32767 = false ∧ inCustomRange 32767 = true)) ∧
      ((inNativeRange 32768 = true ∧ inCustomRange 32768 = false) ∨
        (inNativeRange 32768 = false ∧ inCustomRange 32768 = true)) ∧
      inNativeRange 32767 = true ∧ inCustomRange 32768 = true :=
  ⟨(bus_id_space_partition 32767).2.2.1 (by decide) (by decide),
    (bus_id_space_partition 32768).2.2.1 (by decide) (by decide), by decide, by decide⟩

/-! ## The status flags -/

/-- C10: when the host runtime has not defined it, `MICROBIT_COMPONENT_RUNNING` is `0x01`, and
`CUSTOM_COMPONENT_ADDED_TO_IDLE` is `0x02`: two different powers of two whose bitwise AND is 0.
In a status field of `w ≥ 2` bits, setting or clearing either flag leaves the test of the other
flag as it was. -/
theorem status_flags_independent (w status : Nat) (hw : 2 ≤ w) :
    MICROBIT_COMPONENT_RUNNING none = 0x01 ∧ MICROBIT_COMPONENT_RUNNING none = 2 ^ 0 ∧
      CUSTOM_COMPONENT_ADDED_TO_IDLE = 2 ^ 1 ∧
      MICROBIT_COMPONENT_RUNNING none ≠ CUSTOM_COMPONENT_ADDED_TO_IDLE ∧
      MICROBIT_COMPONENT_RUNNING none &&& CUSTOM_COMPONENT_ADDED_TO_IDLE = 0 ∧
      flagSet (setFlag status (MICROBIT_COMPONENT_RUNNING none)) CUSTOM_COMPONENT_ADDED_TO_IDLE
        = flagSet status CUSTOM_COMPONENT_ADDED_TO_IDLE ∧
      flagSet (clearFlag w status (MICROBIT_COMPONENT_RUNNING none)) CUSTOM_COMPONENT_ADDED_TO_IDLE
        = flagSet status CUSTOM_COMPONENT_ADDED_TO_IDLE ∧
      flagSet (setFlag status CUSTOM_COMPONENT_ADDED_TO_IDLE) (MICROBIT_COMPONENT_RUNNING none)
        = flagSet status (MICROBIT_COMPONENT_RUNNING none) ∧
      flagSet (clearFlag w status CUSTOM_COMPONENT_ADDED_TO_IDLE) (MICROBIT_COMPONENT_RUNNING none)
        = flagSet status (MICROBIT_COMPONENT_RUNNING none) := by
  have h12 : MICROBIT_COMPONENT_RUNNING none &&& CUSTOM_COMPONENT_ADDED_TO_IDLE = 0 := by decide
  have h21 : CUSTOM_COMPONENT_ADDED_TO_IDLE &&& MICROBIT_COMPONENT_RUNNING none = 0 := by decide
  have hw4 : 2 ^ 2 ≤ 2 ^ w := Nat.pow_le_pow_right (by decide) hw
  have hI : CUSTOM_COMPONENT_ADDED_TO_IDLE < 2 ^ w :=
    Nat.lt_of_lt_of_le (by decide : CUSTOM_COMPONENT_ADDED_TO_IDLE < 2 ^ 2) hw4
  have hR : MICROBIT_COMPONENT_RUNNING none < 2 ^ w :=
    Nat.lt_of_lt_of_le (by decide : MICROBIT_COMPONENT_RUNNING none < 2 ^ 2) hw4
  refine ⟨rfl, rfl, rfl, by decide, h12, ?_, ?_, ?_, ?_⟩
  · unfold flagSet; rw [and_setFlag_of_disjoint _ _ _ h12]
  · unfold flagSet; rw [and_clearFlag_of_disjoint _ _ _ _ h12 hI]
  · unfold flagSet; rw [and_setFlag_of_disjoint _ _ _ h21]
  · unfold flagSet; rw [and_clearFlag_of_disjoint _ _ _ _ h21 hR]

/-- C10 in a 16-bit status field holding `0x01`: the running flag is set, the idle flag is
not, and that stays so for each flag when the other one is set or cleared. -/
theorem status_flags_independent_witness :
    flagSet (setFlag 0x01 (MICROBIT_COMPONENT_RUNNING none)) CUSTOM_COMPONENT_ADDED_TO_IDLE = false ∧
      flagSet (clearFlag 16 0x01 (MICROBIT_COMPONENT_RUNNING none)) CUSTOM_COMPONENT_ADDED_TO_IDLE
        = false ∧
      flagSet (setFlag 0x01 CUSTOM_COMPONENT_ADDED_TO_IDLE) (MICROBIT_COMPONENT_RUNNING none)
        = true ∧
      flagSet (clearFlag 16 0x01 CUSTOM_COMPONENT_ADDED_TO_IDLE) (MICROBIT_COMPONENT_RUNNING none)
        = true :=
  have h := status_flags_independent 16 0x01 (by decide)
  ⟨h.2.2.2.2.2.1.trans (by decide), h.2.2.2.2.2.2.1.trans (by decide),
    h.2.2.2.2.2.2.2.1.trans (by decide), h.2.2.2.2.2.2.2.2.trans (by decide)⟩

end MState
